/-
Verification of the hybrid tau-leaping solver core
(src/gillespy2/solvers/cpp/c_base/tau_hybrid_cpp_solver/TauHybridCSolver.cpp and
src/gillespy2/solvers/cpp/c_base/model.h).

The C++ code is shallowly embedded below.  Raw C arrays (including the CVODE
N_Vector data pointers) are modeled as total maps Nat → ℚ, so that the embedding
can express writes at any index the source actually addresses, including
out-of-range ones.  `double` arithmetic is modeled over ℚ; the random
`log(uniform(rng))` draws consumed by the reconciliation loop are passed in
explicitly as a list of rationals.  Loops are embedded structurally (recursion
on the remaining draw list, or on an explicit fuel bound when the source loop
has no structural decrease).
-/
import Mathlib

namespace GillespyHybrid

/-- Embedding of the fields of `struct Species` (model.h, lines 14-41) used by the
solver fragment: only `initial_population` is read by TauHybridCSolver. -/
structure Species where
  initial_population : Nat

/-- Embedding of the fields of `struct Model` (model.h, lines 56-63) used by the
solver fragment: the species count and the species array (modeled as a total map). -/
structure Model where
  number_species : Nat
  species : Nat → Species

/-- Embedding of the fields of `struct Simulation` (model.h, lines 79-116) used by
the solver fragment: the model, the trajectory count and the `random_seed` field.
The `trajectoriesODE` output buffer is threaded explicitly as solver state. -/
structure Simulation where
  model : Model
  number_trajectories : Nat
  random_seed : Int

/-- The `trajectoriesODE` triple-pointer buffer (model.h, line 106), modeled as a
total map trajectory → timestep → species → value. -/
abbrev Buf := Nat → Nat → Nat → ℚ

/-- Pointwise write of one buffer cell, modeling `trajectoriesODE[i][j][k] = v`. -/
def update3 (b : Buf) (i j k : Nat) (v : ℚ) : Buf :=
  fun i2 j2 k2 => if i2 = i ∧ j2 = j ∧ k2 = k then v else b i2 j2 k2

/-- Embedding of the initial-state copy, TauHybridCSolver.cpp lines 122-126.
Despite the comment "copy initial state for each trajectory", the loop writes only
`trajectoriesODE[0][0][s]` (the literal index 0 appears in the source for the
trajectory and timestep dimensions); it also fills the `current_state` vector
(a `std::vector<double>` of length `num_species`, value-initialized to 0). -/
def solverInitPhase (sim : Simulation) (buf : Buf) : Buf × (Nat → ℚ) :=
  ((List.range sim.model.number_species).foldl
      (fun b s => update3 b 0 0 s ((sim.model.species s).initial_population : ℚ)) buf,
   fun s => if s < sim.model.number_species
            then ((sim.model.species s).initial_population : ℚ) else 0)

/-- Observable outcome of one call of `TauHybridCSolver`: whether the SIGINT handler
was installed (line 98), whether an integrator was created (`CVodeCreate`, line 173),
and the resulting `trajectoriesODE` buffer. -/
structure SolverResult where
  sigint_installed : Bool
  integrator_created : Bool
  trajectoriesODE : Buf

/-- Embedding of the entry point `TauHybridCSolver` (lines 95-169): `signal(SIGINT,
signalHandler)` is modeled by the `sigint_installed` flag; the whole body sits under
`if (simulation)` (line 99), so with a null simulation nothing else happens.  With a
simulation present, the initialization phase runs (the initial-population copy of
lines 122-126 and the integrator creation of line 173); the subsequent CVODE-driven
step loop is modeled by the standalone definitions `f`, `reconcilePhase` and
`emissionLoop` below, since `CVode` itself is an external library call. -/
def TauHybridCSolver (simulation : Option Simulation) (buf : Buf) : SolverResult :=
  match simulation with
  | none => ⟨true, false, buf⟩
  | some sim => ⟨true, true, (solverInitPhase sim buf).1⟩

/-- Embedding of the solver RNG initialization, lines 115-120: the generator is
declared `std::mt19937_64 rng;` and is default-constructed, which per the C++
standard seeds it with the fixed default seed 5489.  `simulation->random_seed` is
never read anywhere in TauHybridCSolver.cpp (the TODO at line 118 records that seed
assignment is unimplemented), so the seed in effect is a constant function of the
simulation. -/
def solverRngSeed : Simulation → Nat := fun _ => 5489

/-- Embedding of the packed-vector allocation, line 155:
`N_Vector y0 = N_VNew_Serial(num_species);` — the allocated length is
`num_species`, whatever `num_reactions` is. -/
def packedVectorLength : Nat → Nat → Nat := fun num_species _ => num_species

/-- Indices written by the reaction-offset initialization loop, lines 162-168:
`for (int rxn_i = num_species; rxn_i < rxn_offset_boundary; ++rxn_i)
   NV_Ith_S(y0, rxn_i) = log(uniform(rng));` -/
def initOffsetWriteIndices (num_species num_reactions : Nat) : List Nat :=
  (List.range num_reactions).map (fun i => num_species + i)

/-- Inputs of the ODE right-hand-side function `f` (lines 287-343) that come from
the simulation: species and reaction counts, the per-reaction stoichiometry rows
`model->reactions[r].species_change[s]`, and the external propensity evaluator
`propensity_function->ODEEvaluate`. -/
structure RhsCtx where
  number_species : Nat
  number_reactions : Nat
  species_change : Nat → Nat → Int
  ODEEvaluate : Nat → List ℚ → ℚ

/-- The branchless sign used at line 338: `(-1 + 2 * (species_change > 0))`,
where the C comparison yields 1 for a positive change and 0 otherwise. -/
def signFactor (species_change : Int) : ℚ :=
  -1 + 2 * (if 0 < species_change then 1 else 0)

/-- The `concentrations` vector filled at lines 307-308: a copy of the first
`num_species` entries of `Y`, taken before the reaction loop runs. -/
def concVec (num_species : Nat) (Y : Nat → ℚ) : List ℚ :=
  (List.range num_species).map Y

/-- The species loop of `f`, lines 328-339, folded over an explicit index list:
for each species index the stoichiometric change is looked up; a zero change is
skipped (`continue`), otherwise `dydt[spec_i] += propensity * (-1 + 2 * (sc > 0))`. -/
def fSpeciesFold (ctx : RhsCtx) (rxn_i : Nat) (propensity : ℚ)
    (d : Nat → ℚ) (l : List Nat) : Nat → ℚ :=
  l.foldl
    (fun d spec_i =>
      if ctx.species_change rxn_i spec_i = 0 then d
      else Function.update d spec_i
        (d spec_i + propensity * signFactor (ctx.species_change rxn_i spec_i)))
    d

/-- The species loop of `f` over its actual range `[0, num_species)`. -/
def fSpeciesLoop (ctx : RhsCtx) (rxn_i : Nat) (propensity : ℚ) (d : Nat → ℚ) :
    Nat → ℚ :=
  fSpeciesFold ctx rxn_i propensity d (List.range ctx.number_species)

/-- One iteration of the reaction loop of `f`, lines 317-340, acting on the pair
(Y, dydt).  The source computes `rxn_offset_i = rxn_i + num_species` (line 319),
the propensity (line 323), and then executes
`rxn_offsets[rxn_offset_i] = Y[rxn_offset_i] + propensity;` (line 326), where
`rxn_offsets = &Y[num_species]` (line 300) — so the write lands in the input
vector `Y` at absolute index `num_species + rxn_offset_i`, while the read is from
`Y[rxn_offset_i]`.  Finally the species loop updates `dydt`. -/
def fReactionStep (ctx : RhsCtx) (conc : List ℚ) (st : (Nat → ℚ) × (Nat → ℚ))
    (rxn_i : Nat) : (Nat → ℚ) × (Nat → ℚ) :=
  let rxn_offset_i := rxn_i + ctx.number_species
  let propensity := ctx.ODEEvaluate rxn_i conc
  (Function.update st.1 (ctx.number_species + rxn_offset_i)
      (st.1 rxn_offset_i + propensity),
   fSpeciesLoop ctx rxn_i propensity st.2)

/-- The zeroing of `dydt[spec_i]` at line 309, folded over an index list. -/
def zeroFold (d : Nat → ℚ) (l : List Nat) : Nat → ℚ :=
  l.foldl (fun d spec_i => Function.update d spec_i 0) d

/-- Embedding of the ODE right-hand-side function `f`, lines 287-343.  `Y` and
`ydot` are the raw CVODE data arrays, modeled as total maps.  The function copies
the concentrations and zeroes `dydt[0..num_species)` (lines 307-310), then runs the
reaction loop (lines 317-340).  The returned pair is the final (Y, ydot): the
source writes into `Y` through the shifted `rxn_offsets` pointer, so the first
component can differ from the input `Y`. -/
def f (ctx : RhsCtx) (Y ydot : Nat → ℚ) : (Nat → ℚ) × (Nat → ℚ) :=
  let conc := concVec ctx.number_species Y
  (List.range ctx.number_reactions).foldl (fReactionStep ctx conc)
    (Y, zeroFold ydot (List.range ctx.number_species))

/-- The inner species loop of one tentative firing, lines 227-232: walking the
`current_state`, `species_change` and `population_changes` arrays in step,
`population_changes[spec_i] += species_change[spec_i]` is applied first, and if the
projected population `current_state[spec_i] + population_changes[spec_i]` is
negative the loop breaks, leaving the remaining entries untouched. -/
def fireOnce : List Int → List Int → List Int → List Int
  | cur :: curs, sc :: scs, pc :: pcs =>
      let pcNew := pc + sc
      if cur + pcNew < 0 then pcNew :: pcs
      else pcNew :: fireOnce curs scs pcs
  | _, _, pc => pc

/-- The firing-count while loop, lines 224-237: while `rxn_state >= 0`, fire once
(updating `population_changes`) and add the next `log(uniform(rng))` draw to
`rxn_state`.  The draws are supplied as an explicit list; if they run out while
`rxn_state` is still non-negative the source loop would keep drawing, so the model
returns with the non-negative state and an empty remainder.  Returns the final
`rxn_state`, the final `population_changes`, and the unconsumed draws. -/
def fireLoop (cur sc : List Int) : ℚ → List Int → List ℚ → ℚ × List Int × List ℚ
  | rxn_state, pc, [] => (rxn_state, pc, [])
  | rxn_state, pc, d :: rest =>
      if rxn_state < 0 then (rxn_state, pc, d :: rest)
      else fireLoop cur sc (rxn_state + d) (fireOnce cur sc pc) rest

/-- The mutable state read and written by the reconciliation code, lines 213-256:
the species populations `current_state`, the `rxn_offsets` view of the integrator
vector, and the driver variables `current_time`, `next_time` and `tau_step`. -/
structure StepState where
  current_state : List Int
  rxn_offsets : Nat → ℚ
  current_time : ℚ
  next_time : ℚ
  tau_step : ℚ

/-- Embedding of one reaction's reconciliation body, lines 216-255:
`rxn_state = rxn_offsets[rxn_i]`; `population_changes` is zero-initialized (lines
219-220); the firing while-loop runs (lines 224-237); then, since the while loop
only exits with `rxn_state < 0`, the commit branch (lines 241-248) applies
`current_state[p_i] += population_changes[p_i]` and writes `rxn_state` back, while
the rejection branch (lines 249-255) resets `next_time` to `current_time` and
halves `tau_step` — without restoring any state (the TODO at line 254 records the
missing integrator reset).  Returns the new state and the unconsumed draws. -/
def reconcileReaction (species_change : List Int) (rxn_i : Nat) (st : StepState)
    (draws : List ℚ) : StepState × List ℚ :=
  let pc0 : List Int := List.replicate st.current_state.length 0
  let res := fireLoop st.current_state species_change (st.rxn_offsets rxn_i) pc0 draws
  if res.1 < 0 then
    (⟨List.zipWith (fun a b => a + b) st.current_state res.2.1,
      Function.update st.rxn_offsets rxn_i res.1,
      st.current_time, st.next_time, st.tau_step⟩, res.2.2)
  else
    (⟨st.current_state, st.rxn_offsets,
      st.current_time, st.current_time, st.tau_step * (1 / 2)⟩, res.2.2)

/-- The outer reconciliation for-loop, lines 213-256, with its literal guard
`for (int rxn_i = num_species; false && rxn_i < rxn_offset_boundary; ++rxn_i)`.
`species_change_of` gives the stoichiometry row the body would index
(`model.reactions[rxn_i]`, with the loop counter starting at `num_species` as in
the source); `fuel` bounds the iteration count. -/
def reconcilePhaseGo (species_change_of : Nat → List Int) (boundary : Nat) :
    Nat → Nat → StepState → List ℚ → StepState
  | 0, _, st, _ => st
  | fuel + 1, rxn_i, st, draws =>
      if (false && decide (rxn_i < boundary)) = true then
        let res := reconcileReaction (species_change_of rxn_i) rxn_i st draws
        reconcilePhaseGo species_change_of boundary fuel (rxn_i + 1) res.1 res.2
      else st

/-- The reconciliation phase as entered by the driver after each `CVode` call:
loop counter starting at `num_species` with boundary
`rxn_offset_boundary = num_species + num_reactions` (line 151); `num_reactions`
iterations of fuel suffice for the loop the source spells out. -/
def reconcilePhase (species_change_of : Nat → List Int)
    (num_species num_reactions : Nat) (st : StepState) (draws : List ℚ) :
    StepState :=
  reconcilePhaseGo species_change_of (num_species + num_reactions)
    num_reactions num_species st draws

/-- C conversion from `double` to `int`: truncation toward zero. -/
def cIntTrunc (x : ℚ) : Int :=
  if 0 ≤ x then Int.floor x else Int.ceil x

/-- Embedding of the sample-emission loop, lines 261-267.  In the source,
`save_time` is declared `int` (line 187) while `increment` is a `double`
(line 106), so the compound assignment `save_time += increment` converts the sum
back to `int`, truncating toward zero; the same `save_time` value is used both in
the comparison with `next_time` and as the timestep index of the written buffer
row `trajectoriesODE[traj][save_time][*]`.  `fuel` bounds the iteration count,
because for some inputs the loop never terminates.  Returns the list of row
indices written (in order) and the final `save_time`. -/
def emissionLoop : Nat → ℚ → ℚ → Int → List Int → List Int × Int
  | 0, _, _, save_time, writes => (writes, save_time)
  | fuel + 1, increment, next_time, save_time, writes =>
      if (save_time : ℚ) ≤ next_time then
        emissionLoop fuel increment next_time
          (cIntTrunc ((save_time : ℚ) + increment)) (writes ++ [save_time])
      else (writes, save_time)

/-- Concrete RHS inputs: one species, one reaction with stoichiometric change -1,
constant propensity 2, state vector identically 1, derivative buffer identically 7. -/
def ctxOneDecay : RhsCtx := ⟨1, 1, fun _ _ => -1, fun _ _ => 2⟩

/-- Constant state vector for the decay example. -/
def stateOne : Nat → ℚ := fun _ => 1

/-- Constant initial derivative buffer for the decay example. -/
def derivSeven : Nat → ℚ := fun _ => 7

/-- Concrete RHS inputs for the bounds check: one species, one reaction with
stoichiometric change 1, constant propensity 5, state vector identically 0. -/
def ctxOneBirth : RhsCtx := ⟨1, 1, fun _ _ => 1, fun _ _ => 5⟩

/-- Constant zero state vector for the birth example. -/
def stateZero : Nat → ℚ := fun _ => 0

/-- Concrete RHS inputs for the derivative formula: two species, two reactions.
Reaction 0 has changes (-2, 1), reaction 1 has changes (0, 3); the propensity of
reaction r is r + 1. -/
def ctxTwo : RhsCtx :=
  ⟨2, 2,
   fun rxn_i spec_i =>
     if rxn_i = 0 then (if spec_i = 0 then -2 else 1)
     else (if spec_i = 0 then 0 else 3),
   fun rxn_i _ => (rxn_i : ℚ) + 1⟩

/-- Reconciliation input where one firing of change -1 from population 0 projects a
negative population: offset 1/2, one draw of -1. -/
def stepStZero : StepState := ⟨[0], fun _ => 1 / 2, 0, 1, 1⟩

/-- Reconciliation input where one firing of change -2 from population 1 projects a
negative population: offset 0, one draw of -1. -/
def stepStOne : StepState := ⟨[1], fun _ => 0, 0, 1, 1⟩

/-- A simulation with one species of initial population 5 and two trajectories. -/
def simTwoTraj : Simulation := ⟨⟨1, fun _ => ⟨5⟩⟩, 2, 0⟩

/-- The all-zero output buffer. -/
def bufZero : Buf := fun _ _ _ => 0

/-- A simulation whose `random_seed` field is 42. -/
def simSeed42 : Simulation := ⟨⟨1, fun _ => ⟨5⟩⟩, 1, 42⟩

/-- A simulation whose `random_seed` field is 0. -/
def simSeed0 : Simulation := ⟨⟨1, fun _ => ⟨5⟩⟩, 1, 0⟩

/-- Evaluation helper: the singleton index range. -/
theorem range_one_eq : List.range 1 = [0] := rfl

/-- The reconciliation for-loop guard `false && rxn_i < boundary` is identically
false, so the loop returns its input state at every fuel. -/
theorem reconcilePhaseGo_eq_self (species_change_of : Nat → List Int)
    (boundary : Nat) (fuel rxn_i : Nat) (st : StepState) (draws : List ℚ) :
    reconcilePhaseGo species_change_of boundary fuel rxn_i st draws = st := by
  cases fuel with
  | zero => rfl
  | succ n => simp [reconcilePhaseGo]

/-- C1: the driver's firing reconciliation after an integrator advance.  The claim
says the loop runs (accumulating firings and committing population changes), and in
particular that it executes for some input with an offset ≥ 0.  The embedded loop
(guard `false && rxn_i < rxn_offset_boundary`, line 213) instead returns the state
unchanged for every input, including every state whose offsets are non-negative:
populations are never updated and offsets are never written back. -/
theorem reconciliation_loop_never_runs (species_change_of : Nat → List Int)
    (num_species num_reactions : Nat) (st : StepState) (draws : List ℚ) :
    reconcilePhase species_change_of num_species num_reactions st draws = st := by
  unfold reconcilePhase
  exact reconcilePhaseGo_eq_self species_change_of
    (num_species + num_reactions) num_reactions num_species st draws

/-- C2: the RHS function is claimed to store the propensity into the derivative
slot `dydt[num_species + rxn_i]` and to leave the input `Y` unmodified.  On the
concrete decay input (one species, one reaction, propensity 2), the embedded `f`
leaves `dydt[1]` at its incoming value 7 instead of the propensity, and modifies
the input vector at index 2 (through the shifted `rxn_offsets` pointer). -/
theorem rhs_writes_input_vector_not_derivative :
    (f ctxOneDecay stateOne derivSeven).2 1 ≠ ctxOneDecay.ODEEvaluate 0 (concVec 1 stateOne) ∧
    (f ctxOneDecay stateOne derivSeven).1 2 ≠ stateOne 2 := by
  norm_num [f, fReactionStep, fSpeciesLoop, fSpeciesFold, zeroFold, concVec,
    signFactor, ctxOneDecay, stateOne, derivSeven, Function.update_apply,
    range_one_eq]

/-- C3: the packed state vector is claimed to be allocated with length
`num_species + num_reactions` with every reaction-offset access strictly below that
bound.  With one species and one reaction, the embedded allocation length is 1, not
2; the offset initialization writes index 1, which is not below the allocated
length; and the RHS modifies the vector at index 2, which is not strictly below
`num_species + num_reactions = 2`. -/
theorem packed_vector_access_out_of_bounds :
    packedVectorLength 1 1 ≠ 1 + 1 ∧
    1 ∈ initOffsetWriteIndices 1 1 ∧
    ¬ 1 < packedVectorLength 1 1 ∧
    (f ctxOneBirth stateZero stateZero).1 2 ≠ stateZero 2 ∧
    ¬ 2 < 1 + 1 := by
  norm_num [f, fReactionStep, fSpeciesLoop, fSpeciesFold, zeroFold, concVec,
    signFactor, ctxOneBirth, stateZero, Function.update_apply, range_one_eq,
    packedVectorLength, initOffsetWriteIndices]

/-- C4: non-negativity of committed populations.  On the concrete input with
population 0, stoichiometric change -1, offset 1/2 and one draw of -1, the
embedded reconciliation body takes the commit branch (the while loop only exits
with a negative `rxn_state`) and commits population -1: the applied
`population_changes` vector makes `current_state[0] + population_changes[0] < 0`
and the negative value is written into the committed state. -/
theorem reconcile_commits_negative_population :
    ((reconcileReaction [-1] 1 stepStZero [-1]).1.current_state = [-1]) ∧
    ((-1 : Int) < 0) ∧
    ((reconcileReaction [-1] 1 stepStZero [-1]).1.tau_step = stepStZero.tau_step) := by
  norm_num [reconcileReaction, fireLoop, fireOnce, stepStZero]

/-- C5: rejection handling.  On the concrete input with population 1,
stoichiometric change -2, offset 0 and one draw of -1, the projected population
1 + (-2) is negative, which the claim says triggers a rejection that leaves the
state exactly as it was and halves `tau_step`.  The embedded reconciliation body
instead commits the change (the populations differ from the pre-step snapshot) and
leaves `tau_step` unhalved. -/
theorem rejected_step_state_not_restored :
    ((1 : Int) + (-2) < 0) ∧
    ((reconcileReaction [-2] 1 stepStOne [-1]).1.current_state ≠ stepStOne.current_state) ∧
    ((reconcileReaction [-2] 1 stepStOne [-1]).1.tau_step = stepStOne.tau_step) := by
  norm_num [reconcileReaction, fireLoop, fireOnce, stepStOne]

/-- C6: the initial populations are claimed to be copied into the output buffer
cell [traj][0][s] for every trajectory.  With two trajectories and initial
population 5, the embedded solver writes 5 into cell [0][0][0] but leaves cell
[1][0][0] at its prior value 0. -/
theorem initial_copy_reaches_only_trajectory_zero :
    simTwoTraj.number_trajectories = 2 ∧
    (TauHybridCSolver (some simTwoTraj) bufZero).trajectoriesODE 0 0 0 = 5 ∧
    (TauHybridCSolver (some simTwoTraj) bufZero).trajectoriesODE 1 0 0 = 0 ∧
    (5 : ℚ) ≠ 0 := by
  decide

/-- C9: the RNG is claimed to be seeded from the simulation's `random_seed` field,
with a device seed only when that field is zero.  The embedded seed is the fixed
mt19937_64 default 5489 for every simulation: two simulations whose `random_seed`
fields are 42 and 0 receive the identical seed, and neither value influences it. -/
theorem rng_seed_ignores_simulation_seed :
    simSeed42.random_seed = 42 ∧ simSeed0.random_seed = 0 ∧
    solverRngSeed simSeed42 = solverRngSeed simSeed0 ∧
    solverRngSeed simSeed42 = 5489 := by
  decide

/-- C10: calling the solver with a null simulation installs the SIGINT handler and
does nothing else: no integrator is created and the output buffer is returned
untouched. -/
theorem null_simulation_skips_body (buf : Buf) :
    TauHybridCSolver none buf = ⟨true, false, buf⟩ := rfl

/-- C8: sample emission.  The claim says samples are emitted once per grid point,
with the save index advancing by one per emitted point and each output cell written
exactly once.  With grid spacing 1/2 (so `increment = 0.5`) and `next_time = 1`,
the embedded loop truncates `save_time + increment` back to the `int` 0 on every
iteration: for every fuel bound it writes row index 0 over and over (`fuel` copies),
never advances `save_time`, and never exits through its loop condition. -/
theorem emission_row_index_never_advances (fuel : Nat) (w : List Int) :
    emissionLoop fuel (1 / 2) 1 0 w = (w ++ List.replicate fuel 0, 0) := by
  induction fuel generalizing w with
  | zero => simp [emissionLoop]
  | succ n ih =>
      have h2 : cIntTrunc (((0 : Int) : ℚ) + 1 / 2) = 0 := by
        norm_num [cIntTrunc]
      simp only [emissionLoop]
      rw [if_pos (by norm_num : ((0 : Int) : ℚ) ≤ 1), h2, ih (w ++ [0])]
      simp [List.replicate_succ]

/-- Unfolding: the species fold over the empty index list. -/
theorem fSpeciesFold_nil (ctx : RhsCtx) (rxn_i : Nat) (p : ℚ) (d : Nat → ℚ) :
    fSpeciesFold ctx rxn_i p d [] = d := rfl

/-- Unfolding: the species fold over a cons performs one conditional update. -/
theorem fSpeciesFold_cons (ctx : RhsCtx) (rxn_i : Nat) (p : ℚ) (d : Nat → ℚ)
    (a : Nat) (t : List Nat) :
    fSpeciesFold ctx rxn_i p d (a :: t)
      = fSpeciesFold ctx rxn_i p
          (if ctx.species_change rxn_i a = 0 then d
           else Function.update d a
             (d a + p * signFactor (ctx.species_change rxn_i a))) t := rfl

/-- The species fold distributes over list append. -/
theorem fSpeciesFold_append (ctx : RhsCtx) (rxn_i : Nat) (p : ℚ) (d : Nat → ℚ)
    (l1 l2 : List Nat) :
    fSpeciesFold ctx rxn_i p d (l1 ++ l2)
      = fSpeciesFold ctx rxn_i p (fSpeciesFold ctx rxn_i p d l1) l2 := by
  simp [fSpeciesFold, List.foldl_append]

/-- The species fold leaves indices outside its index list unchanged. -/
theorem fSpeciesFold_not_mem (ctx : RhsCtx) (rxn_i : Nat) (p : ℚ) :
    ∀ (l : List Nat) (d : Nat → ℚ) (s : Nat), s ∉ l →
      fSpeciesFold ctx rxn_i p d l s = d s := by
  intro l
  induction l with
  | nil => intro d s _; rfl
  | cons a t ih =>
      intro d s hs
      rw [fSpeciesFold_cons]
      simp only [List.mem_cons] at hs
      push_neg at hs
      rw [ih _ s hs.2]
      by_cases hc : ctx.species_change rxn_i a = 0
      · rw [if_pos hc]
      · rw [if_neg hc, Function.update_apply, if_neg hs.1]

/-- Value of the species fold over `List.range n` at an index below `n`: the
incoming value plus one signed contribution (zero when the stoichiometric change
is zero, which the source skips with `continue`). -/
theorem fSpeciesFold_range_apply (ctx : RhsCtx) (rxn_i : Nat) (p : ℚ) :
    ∀ (n : Nat) (d : Nat → ℚ) (s : Nat), s < n →
      fSpeciesFold ctx rxn_i p d (List.range n) s
        = d s + (if ctx.species_change rxn_i s = 0 then 0
                 else p * signFactor (ctx.species_change rxn_i s)) := by
  intro n
  induction n with
  | zero => intro d s hs; exact absurd hs (Nat.not_lt_zero s)
  | succ m ih =>
      intro d s hs
      rw [List.range_succ, fSpeciesFold_append, fSpeciesFold_cons, fSpeciesFold_nil]
      rcases Nat.lt_or_ge s m with h | h
      · by_cases hc : ctx.species_change rxn_i m = 0
        · rw [if_pos hc]
          exact ih d s h
        · rw [if_neg hc, Function.update_apply, if_neg (Nat.ne_of_lt h)]
          exact ih d s h
      · have hsm : s = m := Nat.le_antisymm (Nat.lt_succ_iff.mp hs) h
        subst hsm
        have hD : fSpeciesFold ctx rxn_i p d (List.range s) s = d s :=
          fSpeciesFold_not_mem ctx rxn_i p (List.range s) d s (by simp)
        by_cases hc : ctx.species_change rxn_i s = 0
        · simp only [if_pos hc, hD, add_zero]
        · simp [hc, Function.update_apply, hD]

/-- The zeroing fold leaves indices outside its index list unchanged. -/
theorem zeroFold_not_mem :
    ∀ (l : List Nat) (d : Nat → ℚ) (s : Nat), s ∉ l → zeroFold d l s = d s := by
  intro l
  induction l with
  | nil => intro d s _; rfl
  | cons a t ih =>
      intro d s hs
      simp only [List.mem_cons] at hs
      push_neg at hs
      show zeroFold (Function.update d a 0) t s = d s
      rw [ih _ s hs.2, Function.update_apply, if_neg hs.1]

/-- The zeroing fold over `List.range n` sets every index below `n` to 0. -/
theorem zeroFold_range :
    ∀ (n : Nat) (d : Nat → ℚ) (s : Nat), s < n → zeroFold d (List.range n) s = 0 := by
  intro n
  induction n with
  | zero => intro d s hs; exact absurd hs (Nat.not_lt_zero s)
  | succ m ih =>
      intro d s hs
      rw [List.range_succ]
      show zeroFold d (List.range m ++ [m]) s = 0
      rw [zeroFold, List.foldl_append]
      show Function.update (zeroFold d (List.range m)) m 0 s = 0
      rcases Nat.lt_or_ge s m with h | h
      · rw [Function.update_apply, if_neg (Nat.ne_of_lt h)]
        exact ih d s h
      · have hsm : s = m := Nat.le_antisymm (Nat.lt_succ_iff.mp hs) h
        subst hsm
        rw [Function.update_apply, if_pos rfl]

/-- Projecting the dydt component out of the reaction fold: the Y writes do not
feed back into the dydt updates, so the second component equals folding the
species loop alone. -/
theorem fReactionFold_snd (ctx : RhsCtx) (conc : List ℚ) :
    ∀ (l : List Nat) (Y d : Nat → ℚ),
      (l.foldl (fReactionStep ctx conc) (Y, d)).2
        = l.foldl
            (fun d rxn_i => fSpeciesLoop ctx rxn_i (ctx.ODEEvaluate rxn_i conc) d)
            d := by
  intro l
  induction l with
  | nil => intro Y d; rfl
  | cons a t ih =>
      intro Y d
      rw [List.foldl_cons, List.foldl_cons]
      exact ih _ _

/-- Folding the species loop over the reaction indices `[0, n)` accumulates, at
each species index below `number_species`, the sum of the per-reaction signed
propensity contributions. -/
theorem dydtFold_range (ctx : RhsCtx) (conc : List ℚ) :
    ∀ (n : Nat) (d : Nat → ℚ) (s : Nat), s < ctx.number_species →
      ((List.range n).foldl
          (fun d rxn_i => fSpeciesLoop ctx rxn_i (ctx.ODEEvaluate rxn_i conc) d) d) s
        = d s + Finset.sum (Finset.range n) (fun rxn_i =>
            if ctx.species_change rxn_i s = 0 then 0
            else ctx.ODEEvaluate rxn_i conc * signFactor (ctx.species_change rxn_i s)) := by
  intro n
  induction n with
  | zero => intro d s _; simp
  | succ m ih =>
      intro d s hs
      rw [List.range_succ, List.foldl_append, List.foldl_cons, List.foldl_nil,
        Finset.sum_range_succ]
      show fSpeciesLoop ctx m (ctx.ODEEvaluate m conc) _ s = _
      rw [fSpeciesLoop, fSpeciesFold_range_apply ctx m _ ctx.number_species _ s hs,
        ih d s hs, add_assoc]

/-- C7: the concentration derivative produced by the RHS function.  For every
species index below `number_species`, the derivative starts from the zeroed value
and equals the sum over all reactions with nonzero stoichiometric change of the
propensity times the branchless sign `(-1 + 2 * (change > 0))`; and that sign is
always 1 or -1, so only the sign of the change, never its magnitude, multiplies
the propensity. -/
theorem rhs_derivative_is_signed_propensity_sum (ctx : RhsCtx) (Y d0 : Nat → ℚ)
    (s : Nat) (hs : s < ctx.number_species) :
    (f ctx Y d0).2 s
      = Finset.sum (Finset.range ctx.number_reactions) (fun rxn_i =>
          if ctx.species_change rxn_i s = 0 then 0
          else ctx.ODEEvaluate rxn_i (concVec ctx.number_species Y)
                 * signFactor (ctx.species_change rxn_i s)) ∧
    (∀ c : Int, signFactor c = 1 ∨ signFactor c = -1) := by
  constructor
  · have h1 : (f ctx Y d0).2
        = (List.range ctx.number_reactions).foldl
            (fun d rxn_i =>
              fSpeciesLoop ctx rxn_i
                (ctx.ODEEvaluate rxn_i (concVec ctx.number_species Y)) d)
            (zeroFold d0 (List.range ctx.number_species)) := by
      simp only [f]
      exact fReactionFold_snd ctx _ _ _ _
    rw [h1, dydtFold_range ctx _ ctx.number_reactions _ s hs,
      zeroFold_range ctx.number_species d0 s hs, zero_add]
  · intro c
    by_cases hc : 0 < c
    · left
      norm_num [signFactor, hc]
    · right
      norm_num [signFactor, hc]

/-- Witness for C7: the derivative formula instantiated at the concrete
two-species, two-reaction context, species index 0. -/
theorem rhs_derivative_sum_holds_on_example :
    0 < ctxTwo.number_species ∧
    ((f ctxTwo stateOne stateZero).2 0
        = Finset.sum (Finset.range ctxTwo.number_reactions) (fun rxn_i =>
            if ctxTwo.species_change rxn_i 0 = 0 then 0
            else ctxTwo.ODEEvaluate rxn_i (concVec ctxTwo.number_species stateOne)
                   * signFactor (ctxTwo.species_change rxn_i 0)) ∧
     (∀ c : Int, signFactor c = 1 ∨ signFactor c = -1)) :=
  ⟨by decide,
   rhs_derivative_is_signed_propensity_sum ctxTwo stateOne stateZero 0 (by decide)⟩

end GillespyHybrid
